import Mathlib

/-!
# Verification of the DUECh dictionary editing and search core

Shallow embedding of `src/lib/editor-mutations.ts`, the relevant parts of
`src/lib/schema.ts`, and the search-page controller of
`src/components/search/add-word-modal.tsx`, together with theorems settling
behavioural claims about them.

Modelling conventions:
* JavaScript strings are Lean `String`; nullable/optional strings are
  `Option String` (`none` covers both `null` and `undefined`).
* JS truthiness on such values is made explicit (`jsTruthy`).
* The relational store is a record of row lists plus id counters; `serial`
  primary keys are modelled by handing out the counter and incrementing it.
* Timestamp columns are omitted: no claim mentions them.
* JS `String.prototype.trim` is modelled by `jsTrim`, a structural recursion
  over the character list (they agree on ordinary whitespace, the only
  whitespace relevant here).
-/

namespace Duech

/-- A JS value that is either a string, `null`, or `undefined` (the latter two
both mapped to `none`). -/
abbrev JStr := Option String

/-- JS truthiness of a nullable string: `null`/`undefined` and `""` are falsy,
every other string is truthy. -/
def jsTruthy : JStr → Bool
  | none => false
  | some s => !(s == "")

/-- JS `a || b` on nullable strings. -/
def jsOr (a b : JStr) : JStr := if jsTruthy a then a else b

/-- JS `a || null`: keep a truthy value, collapse any falsy value to SQL `NULL`. -/
def orNull (a : JStr) : JStr := if jsTruthy a then a else none

/-- JS `(a || '')`. -/
def jsOrEmpty (a : JStr) : String := if jsTruthy a then a.getD "" else ""

/-- JS `s[0]` viewed as an optional character: `none` on the empty string. -/
def firstChar (s : String) : Option Char := s.data.head?

/-- JS `String.prototype.trim`: drop whitespace from both ends. Modelled
structurally over the character list (Lean's builtin `String.trim` is
extensionally the same but is defined by well-founded recursion on byte
positions, which blocks kernel evaluation on concrete inputs). -/
def jsTrim (s : String) : String :=
  { data := ((s.data.dropWhile Char.isWhitespace).reverse.dropWhile Char.isWhitespace).reverse }

/-- JS `String.prototype.toLowerCase` on a single character, for the Basic
Latin and Latin-1 ranges this program works with (ASCII letters plus `À`–`Þ`,
which covers the accented vowels and `Ñ` of the dictionary's alphabet):
Unicode simple lowercasing adds `0x20` on these ranges. Characters outside
them are left unchanged. -/
def jsCharToLower (c : Char) : Char :=
  if 'A' ≤ c ∧ c ≤ 'Z' then Char.ofNat (c.toNat + 32)
  else if 0xC0 ≤ c.toNat ∧ c.toNat ≤ 0xDE ∧ c.toNat ≠ 0xD7 then Char.ofNat (c.toNat + 32)
  else c

/-- The example payload submitted with a meaning, with the fields read by
`cleanExample` (editor-mutations.ts:21): the quotation `value` plus optional
bibliographic metadata, including the legacy `source` field. -/
structure Example where
  value : String
  author : JStr := none
  year : JStr := none
  publication : JStr := none
  source : JStr := none
  format : JStr := none
  title : JStr := none
  date : JStr := none
  city : JStr := none
  editorial : JStr := none
  volume : JStr := none
  number : JStr := none
  page : JStr := none
  doi : JStr := none
  url : JStr := none
deriving DecidableEq, Repr

/-- The cleaned example record produced by `cleanExample`: the legacy `source`
field is gone (folded into `publication`). -/
structure CleanedExample where
  value : String
  author : JStr
  year : JStr
  publication : JStr
  format : JStr
  title : JStr
  date : JStr
  city : JStr
  editorial : JStr
  volume : JStr
  number : JStr
  page : JStr
  doi : JStr
  url : JStr
deriving DecidableEq, Repr

/-- `cleanExample` (editor-mutations.ts:21-38): keep the quotation `value`,
collapse every falsy bibliographic field to `NULL`, and compute `publication`
as `ex.publication || ex.source || null` (legacy `source` shim). -/
def cleanExample (ex : Example) : CleanedExample :=
  { value := ex.value
    author := orNull ex.author
    year := orNull ex.year
    publication := jsOr ex.publication (orNull ex.source)
    format := orNull ex.format
    title := orNull ex.title
    date := orNull ex.date
    city := orNull ex.city
    editorial := orNull ex.editorial
    volume := orNull ex.volume
    number := orNull ex.number
    page := orNull ex.page
    doi := orNull ex.doi
    url := orNull ex.url }

/-- `normalizeAndCleanExamples` (editor-mutations.ts:44-49): `null`/missing or
empty example lists become `[]`; otherwise each example is cleaned. -/
def normalizeAndCleanExamples (examples : Option (List Example)) : List CleanedExample :=
  match examples with
  | none => []
  | some exs => if exs.length == 0 then [] else exs.map cleanExample

/-- Modelled from the spec: the submitted meaning draft
(`Word['values'][number]` in `src/lib/definitions.ts`, which is not among the
provided sources). Its fields are exactly those read by `insertMeaning`
(editor-mutations.ts:55-90): ordinal `number`, required `meaning` text, the
optional descriptive fields, the seven `MEANING_MARKER_KEYS` marker fields,
and the example list. -/
structure MeaningInput where
  number : Int
  origin : JStr := none
  meaning : String
  observation : JStr := none
  remission : JStr := none
  grammarCategory : JStr := none
  socialValuations : JStr := none
  socialStratumMarkers : JStr := none
  styleMarkers : JStr := none
  intentionalityMarkers : JStr := none
  geographicalMarkers : JStr := none
  chronologicalMarkers : JStr := none
  frequencyMarkers : JStr := none
  dictionary : JStr := none
  variant : JStr := none
  examples : Option (List Example) := none
deriving DecidableEq, Repr

/-- The `Word` payload handed to `createWord` / `updateWordByLemma`: the
fields of the submitted word those functions read. -/
structure WordInput where
  «lemma» : String
  root : JStr := none
  values : List MeaningInput := []
deriving DecidableEq, Repr

/-- A row of the `words` table (schema.ts:49-60), timestamps omitted. -/
structure WordRow where
  id : Nat
  «lemma» : String
  root : JStr := none
  letter : String
  status : String
  createdBy : Option Int := none
  assignedTo : Option Int := none
deriving DecidableEq, Repr

/-- A row of the `meanings` table (schema.ts:78-100), timestamps omitted. -/
structure MeaningRow where
  id : Nat
  wordId : Nat
  number : Int
  origin : JStr
  meaning : String
  observation : JStr
  remission : JStr
  grammarCategory : JStr
  socialValuations : JStr
  socialStratumMarkers : JStr
  styleMarkers : JStr
  intentionalityMarkers : JStr
  geographicalMarkers : JStr
  chronologicalMarkers : JStr
  frequencyMarkers : JStr
  dictionary : JStr
  variant : JStr
deriving DecidableEq, Repr

/-- A row of the `examples` table (schema.ts:103-124), timestamps omitted. -/
structure ExampleRow where
  id : Nat
  meaningId : Nat
  value : String
  author : JStr
  year : JStr
  publication : JStr
  format : JStr
  title : JStr
  date : JStr
  city : JStr
  editorial : JStr
  volume : JStr
  number : JStr
  page : JStr
  doi : JStr
  url : JStr
deriving DecidableEq, Repr

/-- The database state relevant to the mutation claims: the three cascading
tables plus the next value of each `serial` id column. -/
structure DB where
  words : List WordRow
  meanings : List MeaningRow
  examples : List ExampleRow
  nextWordId : Nat
  nextMeaningId : Nat
  nextExampleId : Nat
deriving DecidableEq, Repr

/-- The empty database. -/
def DB.empty : DB :=
  { words := [], meanings := [], examples := [],
    nextWordId := 1, nextMeaningId := 1, nextExampleId := 1 }

/-- Error taxonomy of the mutation service (spec §7). The source throws plain
`Error`s whose messages identify the kind: `'El lema es obligatorio'` is the
validation failure, `'Ya existe una palabra …'` the duplicate-lemma conflict,
`'Word not found: …'` the lookup miss. -/
inductive MutationError where
  | validationError (msg : String)
  | conflictError (msg : String)
  | notFoundError (msg : String)
deriving DecidableEq, Repr

instance {ε : Type u} {α : Type v} [DecidableEq ε] [DecidableEq α] :
    DecidableEq (Except ε α) := fun x y =>
  match x, y with
  | .ok a, .ok b =>
    if h : a = b then isTrue (by rw [h]) else isFalse (fun hc => h (Except.ok.inj hc))
  | .error a, .error b =>
    if h : a = b then isTrue (by rw [h]) else isFalse (fun hc => h (Except.error.inj hc))
  | .ok _, .error _ => isFalse (fun hc => Except.noConfusion hc)
  | .error _, .ok _ => isFalse (fun hc => Except.noConfusion hc)

/-- The meaning-row contents `insertMeaning` (editor-mutations.ts:66-80) stores
for a submitted meaning: every optional field is collapsed to `NULL` when
falsy (the seven marker fields via the `MEANING_MARKER_KEYS` fold, the rest
directly). -/
def meaningRowOf (wordId mid : Nat) (df : MeaningInput) : MeaningRow :=
  { id := mid
    wordId := wordId
    number := df.number
    origin := orNull df.origin
    meaning := df.meaning
    observation := orNull df.observation
    remission := orNull df.remission
    grammarCategory := orNull df.grammarCategory
    socialValuations := orNull df.socialValuations
    socialStratumMarkers := orNull df.socialStratumMarkers
    styleMarkers := orNull df.styleMarkers
    intentionalityMarkers := orNull df.intentionalityMarkers
    geographicalMarkers := orNull df.geographicalMarkers
    chronologicalMarkers := orNull df.chronologicalMarkers
    frequencyMarkers := orNull df.frequencyMarkers
    dictionary := orNull df.dictionary
    variant := orNull df.variant }

/-- An `examples` row as inserted by `insertMeaning` (editor-mutations.ts:82-89)
from a cleaned example. -/
def exampleRowOf (eid mid : Nat) (ex : CleanedExample) : ExampleRow :=
  { id := eid
    meaningId := mid
    value := ex.value
    author := ex.author
    year := ex.year
    publication := ex.publication
    format := ex.format
    title := ex.title
    date := ex.date
    city := ex.city
    editorial := ex.editorial
    volume := ex.volume
    number := ex.number
    page := ex.page
    doi := ex.doi
    url := ex.url }

/-- `insertMeaning` (editor-mutations.ts:55-90): clean the examples, insert one
meaning row (fresh id), then bulk-insert the cleaned examples pointing at it
(the source skips the bulk insert when the list is empty, which coincides with
appending the empty list). -/
def insertMeaning (wordId : Nat) (df : MeaningInput) (db : DB) : DB :=
  let cleanedExamples := normalizeAndCleanExamples df.examples
  let mid := db.nextMeaningId
  let exRows := cleanedExamples.enum.map (fun p => exampleRowOf (db.nextExampleId + p.1) mid p.2)
  { db with
    meanings := db.meanings ++ [meaningRowOf wordId mid df]
    examples := db.examples ++ exRows
    nextMeaningId := mid + 1
    nextExampleId := db.nextExampleId + cleanedExamples.length }

/-- The options argument of `updateWordByLemma` (editor-mutations.ts:104):
the outer `Option` distinguishes `undefined` (field absent, column untouched)
from a provided value; a provided `assignedTo` may itself be `null`. -/
structure UpdateWordOptions where
  status : Option String := none
  assignedTo : Option (Option Int) := none
deriving DecidableEq, Repr

/-- The column assignments of the word-row `update` statement in
`updateWordByLemma` (editor-mutations.ts:116-130): always lemma and
`root || null`, plus status/assignedTo when those options are not undefined. -/
def applyWordUpdate (w : WordInput) (options : UpdateWordOptions) (r : WordRow) : WordRow :=
  { r with
    «lemma» := w.«lemma»
    root := orNull w.root
    status := match options.status with | some s => s | none => r.status
    assignedTo := match options.assignedTo with | some a => a | none => r.assignedTo }

/-- `updateWordByLemma` (editor-mutations.ts:101-141): look the word up by the
previous lemma (`NotFoundError` on a miss), update the word row, delete all of
the word's meaning rows (the `examples` foreign key cascades), then reinsert
every submitted meaning in order. The returned database is paired with the
outcome. -/
def updateWordByLemma (prevLemma : String) (updatedWord : WordInput)
    (options : UpdateWordOptions) (db : DB) : DB × Except MutationError Unit :=
  match db.words.find? (fun r => r.«lemma» == prevLemma) with
  | none => (db, .error (.notFoundError ("Word not found: " ++ prevLemma)))
  | some existingWord =>
    let wordsUpd := db.words.map
      (fun r => if r.id == existingWord.id then applyWordUpdate updatedWord options r else r)
    let deletedIds := (db.meanings.filter (fun m => m.wordId == existingWord.id)).map (·.id)
    let db1 : DB :=
      { db with
        words := wordsUpd
        meanings := db.meanings.filter (fun m => !(m.wordId == existingWord.id))
        examples := db.examples.filter (fun e => !(deletedIds.contains e.meaningId)) }
    let db2 := updatedWord.values.foldl (fun d df => insertMeaning existingWord.id df d) db1
    (db2, .ok ())

/-- `CreateWordOptions` (editor-mutations.ts:146-155). `createdBy`/`assignedTo`
use `?? null`, which collapses `undefined` and `null`, so a single `Option`
suffices; `letter` may be a string, `null`, or absent. -/
structure CreateWordOptions where
  createdBy : Option Int := none
  assignedTo : Option Int := none
  letter : JStr := none
  status : Option String := none
deriving DecidableEq, Repr

/-- The successful payload of `createWord` (editor-mutations.ts:206). -/
structure CreateWordResult where
  wordId : Nat
  «lemma» : String
  letter : String
deriving DecidableEq, Repr

/-- The letter computation of `createWord` (editor-mutations.ts:173-174):
`(options.letter?.trim()?.[0] || normalizedLemma[0] || 'a').toLowerCase()`. -/
def normalizedLetterOf (letterOption : JStr) (normalizedLemma : String) : String :=
  String.singleton
    (jsCharToLower ((((letterOption.map jsTrim).bind firstChar) <|>
      firstChar normalizedLemma).getD 'a'))

/-- The word row inserted by `createWord` (editor-mutations.ts:189-199). -/
def createdWordRow (newWord : WordInput) (options : CreateWordOptions) (db : DB) : WordRow :=
  { id := db.nextWordId
    «lemma» := jsTrim newWord.«lemma»
    root := if jsTrim (jsOrEmpty newWord.root) == "" then none
            else some (jsTrim (jsOrEmpty newWord.root))
    letter := normalizedLetterOf options.letter (jsTrim newWord.«lemma»)
    status := options.status.getD "included"
    createdBy := options.createdBy
    assignedTo := options.assignedTo }

/-- `createWord` (editor-mutations.ts:165-207): trim the lemma and reject the
empty result; derive root, letter, status (default `'included'`); reject a
duplicate lemma; insert the word row and then each submitted meaning in
order. -/
def createWord (newWord : WordInput) (options : CreateWordOptions) (db : DB) :
    DB × Except MutationError CreateWordResult :=
  let normalizedLemma := jsTrim newWord.«lemma»
  if normalizedLemma == "" then
    (db, .error (.validationError "El lema es obligatorio"))
  else
    match db.words.find? (fun r => r.«lemma» == normalizedLemma) with
    | some _ =>
      (db, .error (.conflictError
        ("Ya existe una palabra con el lema \"" ++ normalizedLemma ++ "\"")))
    | none =>
      let wordRecord := createdWordRow newWord options db
      let db1 : DB := { db with words := db.words ++ [wordRecord], nextWordId := db.nextWordId + 1 }
      let db2 := newWord.values.foldl (fun d df => insertMeaning wordRecord.id df d) db1
      (db2, .ok { wordId := wordRecord.id, «lemma» := normalizedLemma,
                  letter := normalizedLetterOf options.letter normalizedLemma })

/-- Declared column default of `words.status` in the schema (schema.ts:55). -/
def wordsStatusDefault : String := "draft"

/-- All meaning rows belonging to a word. -/
def meaningsOf (db : DB) (wordId : Nat) : List MeaningRow :=
  db.meanings.filter (fun m => m.wordId == wordId)

/-- All example rows belonging to a meaning. -/
def examplesOf (db : DB) (meaningId : Nat) : List ExampleRow :=
  db.examples.filter (fun e => e.meaningId == meaningId)

/-- What storage holds for one meaning of a word, id columns stripped: the
normalized meaning fields together with the cascaded cleaned examples. -/
structure StoredMeaning where
  number : Int
  origin : JStr
  meaning : String
  observation : JStr
  remission : JStr
  grammarCategory : JStr
  socialValuations : JStr
  socialStratumMarkers : JStr
  styleMarkers : JStr
  intentionalityMarkers : JStr
  geographicalMarkers : JStr
  chronologicalMarkers : JStr
  frequencyMarkers : JStr
  dictionary : JStr
  variant : JStr
  examples : List CleanedExample
deriving DecidableEq, Repr

/-- The cleaned-example view of a stored example row. -/
def ExampleRow.toCleaned (e : ExampleRow) : CleanedExample :=
  { value := e.value
    author := e.author
    year := e.year
    publication := e.publication
    format := e.format
    title := e.title
    date := e.date
    city := e.city
    editorial := e.editorial
    volume := e.volume
    number := e.number
    page := e.page
    doi := e.doi
    url := e.url }

/-- The stored view of a meaning row: its fields plus its example rows. -/
def MeaningRow.toStored (db : DB) (m : MeaningRow) : StoredMeaning :=
  { number := m.number
    origin := m.origin
    meaning := m.meaning
    observation := m.observation
    remission := m.remission
    grammarCategory := m.grammarCategory
    socialValuations := m.socialValuations
    socialStratumMarkers := m.socialStratumMarkers
    styleMarkers := m.styleMarkers
    intentionalityMarkers := m.intentionalityMarkers
    geographicalMarkers := m.geographicalMarkers
    chronologicalMarkers := m.chronologicalMarkers
    frequencyMarkers := m.frequencyMarkers
    dictionary := m.dictionary
    variant := m.variant
    examples := (examplesOf db m.id).map ExampleRow.toCleaned }

/-- Read back a word's full meaning set (with cascaded examples) from storage,
in row order. -/
def readWordValues (db : DB) (wordId : Nat) : List StoredMeaning :=
  (meaningsOf db wordId).map (MeaningRow.toStored db)

/-- The stored view a submitted meaning is expected to produce: the same
normalization `insertMeaning` applies (falsy fields to `NULL`, examples
normalized and cleaned). -/
def storedOfInput (df : MeaningInput) : StoredMeaning :=
  { number := df.number
    origin := orNull df.origin
    meaning := df.meaning
    observation := orNull df.observation
    remission := orNull df.remission
    grammarCategory := orNull df.grammarCategory
    socialValuations := orNull df.socialValuations
    socialStratumMarkers := orNull df.socialStratumMarkers
    styleMarkers := orNull df.styleMarkers
    intentionalityMarkers := orNull df.intentionalityMarkers
    geographicalMarkers := orNull df.geographicalMarkers
    chronologicalMarkers := orNull df.chronologicalMarkers
    frequencyMarkers := orNull df.frequencyMarkers
    dictionary := orNull df.dictionary
    variant := orNull df.variant
    examples := normalizeAndCleanExamples df.examples }

/-- Bookkeeping invariant of the database model: ids already present are below
the corresponding id counters, so freshly handed-out ids are really fresh. -/
def DB.WF (db : DB) : Prop :=
  (∀ m ∈ db.meanings, m.id < db.nextMeaningId) ∧
  (∀ e ∈ db.examples, e.meaningId < db.nextMeaningId)

/-- The primitive database calls `updateWordByLemma` performs after a
successful lookup, in source order. Each is a separate awaited statement
against the shared store; the source opens no transaction around them, so a
failure between two of them leaves all earlier effects visible. -/
inductive DbOp where
  | updateWordRow (wordId : Nat) (w : WordInput) (options : UpdateWordOptions)
  | deleteMeaningsOf (wordId : Nat)
  | insertMeaningOp (wordId : Nat) (df : MeaningInput)
deriving DecidableEq, Repr

/-- Effect of one primitive call on the store, each matching the corresponding
statement of the source (`db.update`, `db.delete` with cascade,
`insertMeaning`). -/
def applyOp (db : DB) (op : DbOp) : DB :=
  match op with
  | .updateWordRow wid w options =>
    { db with words := db.words.map (fun r => if r.id == wid then applyWordUpdate w options r else r) }
  | .deleteMeaningsOf wid =>
    let deletedIds := (db.meanings.filter (fun m => m.wordId == wid)).map (·.id)
    { db with
      meanings := db.meanings.filter (fun m => !(m.wordId == wid))
      examples := db.examples.filter (fun e => !(deletedIds.contains e.meaningId)) }
  | .insertMeaningOp wid df => insertMeaning wid df db

/-- The full call sequence `updateWordByLemma` issues for a word it found:
update the word row, delete all its meanings, then one insert per submitted
meaning. -/
def updateWordOps (wordId : Nat) (w : WordInput) (options : UpdateWordOptions) : List DbOp :=
  [DbOp.updateWordRow wordId w options, DbOp.deleteMeaningsOf wordId] ++
    w.values.map (DbOp.insertMeaningOp wordId)

/-! ## Search controller (`SearchPage` in add-word-modal.tsx) -/

/-- The pagination metadata kept by the search page
(add-word-modal.tsx:400-404). -/
structure PaginationState where
  totalPages : Nat
  hasNext : Bool
  hasPrev : Bool
deriving DecidableEq, Repr

/-- The payload `searchDictionary` resolves with: a result page plus the
pagination metadata the controller copies into its state. Result rows are
abstracted to their rendered keys. -/
structure SearchData where
  results : List String
  total : Nat
  totalPages : Nat
  hasNext : Bool
  hasPrev : Bool
deriving DecidableEq, Repr

/-- The pieces of `SearchPage` component state that `executeSearch`
(add-word-modal.tsx:499-571) reads or writes: the `latestRequestRef` token
counter and the displayed results, totals, pagination, page and query. -/
structure ControllerState where
  latestRequest : Nat
  searchResults : List String
  totalResults : Nat
  pagination : PaginationState
  currentPage : Nat
  lastExecutedQuery : String
  hasSearched : Bool
  isLoading : Bool
deriving DecidableEq, Repr

/-- Mount-time controller state: `useRef(0)` for the token and the `useState`
initializers of add-word-modal.tsx:394-404. -/
def initialController : ControllerState :=
  { latestRequest := 0
    searchResults := []
    totalResults := 0
    pagination := { totalPages := 0, hasNext := false, hasPrev := false }
    currentPage := 1
    lastExecutedQuery := ""
    hasSearched := false
    isLoading := false }

/-- The events of one `executeSearch` lifecycle on the single-threaded event
loop: `issue` is the synchronous prefix of a call (token bump and
`setIsLoading(true)`); a response event carries the token, page and query its
closure captured, and either the resolved data or a rejection. -/
inductive SearchEvent where
  | issue
  | respondOk (tok : Nat) (query : String) (page : Nat) (data : SearchData)
  | respondErr (tok : Nat)
deriving DecidableEq, Repr

/-- One event-loop step of `executeSearch`: issuing takes the next token and
stores it in `latestRequestRef`; an arriving response is applied only when its
token still equals `latestRequestRef.current` (add-word-modal.tsx:533-560) —
a success copies the data into the displayed state, a failure empties it; a
stale response of either kind returns before touching any state. -/
def searchStep (s : ControllerState) : SearchEvent → ControllerState
  | .issue => { s with latestRequest := s.latestRequest + 1, isLoading := true }
  | .respondOk tok query page data =>
    if tok == s.latestRequest then
      { s with
        searchResults := data.results
        totalResults := data.total
        pagination := { totalPages := data.totalPages, hasNext := data.hasNext,
                        hasPrev := data.hasPrev }
        currentPage := page
        lastExecutedQuery := query
        hasSearched := true
        isLoading := false }
    else s
  | .respondErr tok =>
    if tok == s.latestRequest then
      { s with
        searchResults := []
        totalResults := 0
        pagination := { totalPages := 0, hasNext := false, hasPrev := false }
        hasSearched := true
        isLoading := false }
    else s

/-- Run a sequence of controller events. -/
def runSearch (s : ControllerState) (evs : List SearchEvent) : ControllerState :=
  evs.foldl searchStep s

/-- The tokens handed out to the successive requests of an event trace, in
issue order. -/
def issuedTokens (s : ControllerState) : List SearchEvent → List Nat
  | [] => []
  | .issue :: es => (s.latestRequest + 1) :: issuedTokens (searchStep s .issue) es
  | .respondOk tok query page data :: es =>
    issuedTokens (searchStep s (.respondOk tok query page data)) es
  | .respondErr tok :: es => issuedTokens (searchStep s (.respondErr tok)) es

/-! ## Search UI filter state (`updateStateIfChanged`, add-word-modal.tsx) -/

/-- The `LocalSearchFilters` object: one list of selected values per filter
category — categories, origins, letters, dictionaries and the seven
`MEANING_MARKER_KEYS` marker categories. -/
structure LocalSearchFilters where
  categories : List String := []
  origins : List String := []
  letters : List String := []
  dictionaries : List String := []
  socialValuations : List String := []
  socialStratumMarkers : List String := []
  styleMarkers : List String := []
  intentionalityMarkers : List String := []
  geographicalMarkers : List String := []
  chronologicalMarkers : List String := []
  frequencyMarkers : List String := []
deriving DecidableEq, Repr

/-- Modelled from the spec: `filtersChanged` lives in
`src/lib/search-utils.ts`, which is not among the provided sources. Per the
spec, "equality is structural per filter category, not by reference": two
filter objects have changed exactly when some category's list of selected
values differs. -/
def filtersChanged (a b : LocalSearchFilters) : Bool :=
  a.categories != b.categories || a.origins != b.origins || a.letters != b.letters ||
  a.dictionaries != b.dictionaries ||
  a.socialValuations != b.socialValuations ||
  a.socialStratumMarkers != b.socialStratumMarkers ||
  a.styleMarkers != b.styleMarkers ||
  a.intentionalityMarkers != b.intentionalityMarkers ||
  a.geographicalMarkers != b.geographicalMarkers ||
  a.chronologicalMarkers != b.chronologicalMarkers ||
  a.frequencyMarkers != b.frequencyMarkers

/-- Modelled from the spec: `cloneFilters` (`src/lib/search-utils.ts`, not
among the provided sources) returns a fresh deep copy of the filter lists;
under value semantics that is the field-by-field copy. -/
def cloneFilters (f : LocalSearchFilters) : LocalSearchFilters :=
  { categories := f.categories
    origins := f.origins
    letters := f.letters
    dictionaries := f.dictionaries
    socialValuations := f.socialValuations
    socialStratumMarkers := f.socialStratumMarkers
    styleMarkers := f.styleMarkers
    intentionalityMarkers := f.intentionalityMarkers
    geographicalMarkers := f.geographicalMarkers
    chronologicalMarkers := f.chronologicalMarkers
    frequencyMarkers := f.frequencyMarkers }

/-- The canonical search state `{query, filters, status, assignedTo}` managed
by the search page. -/
structure SearchUiState where
  query : String
  filters : LocalSearchFilters
  status : String
  assignedTo : List String
deriving DecidableEq, Repr

/-- `updateStateIfChanged` (add-word-modal.tsx:300-322): when neither the
query text nor the filter contents changed, hand back the previous state
object unchanged; otherwise install the new query and, only if the filters
changed, a clone of the new filters. -/
def updateStateIfChanged (prev : SearchUiState) (query : String)
    (filters : LocalSearchFilters) : SearchUiState :=
  let hasFiltersChanged := filtersChanged prev.filters filters
  let queryChanged := prev.query != query
  if !hasFiltersChanged && !queryChanged then prev
  else
    { prev with
      query := query
      filters := if hasFiltersChanged then cloneFilters filters else prev.filters }

/-- The state updater passed to `updateState` by `handleSearchStateChange`
(add-word-modal.tsx:449-469): in editor mode live query edits are ignored and
only changed filters are installed; in public mode it defers to
`updateStateIfChanged`. -/
def handleSearchStateChange (editorMode : Bool) (query : String)
    (filters : LocalSearchFilters) (prev : SearchUiState) : SearchUiState :=
  if editorMode then
    if !(filtersChanged prev.filters filters) then prev
    else { prev with filters := cloneFilters filters }
  else
    updateStateIfChanged prev query filters

/-! ## Helper lemmas about `insertMeaning` -/

lemma insertMeaning_words (wid : Nat) (df : MeaningInput) (db : DB) :
    (insertMeaning wid df db).words = db.words := rfl

lemma insertMeaning_nextMeaningId (wid : Nat) (df : MeaningInput) (db : DB) :
    (insertMeaning wid df db).nextMeaningId = db.nextMeaningId + 1 := rfl

lemma insertMeaning_meanings (wid : Nat) (df : MeaningInput) (db : DB) :
    (insertMeaning wid df db).meanings =
      db.meanings ++ [meaningRowOf wid db.nextMeaningId df] := rfl

lemma insertMeaning_examples (wid : Nat) (df : MeaningInput) (db : DB) :
    (insertMeaning wid df db).examples =
      db.examples ++ (normalizeAndCleanExamples df.examples).enum.map
        (fun p => exampleRowOf (db.nextExampleId + p.1) db.nextMeaningId p.2) := rfl

lemma mem_insertMeaning_exRows {df : MeaningInput} {db : DB} {e : ExampleRow}
    (he : e ∈ (normalizeAndCleanExamples df.examples).enum.map
      (fun p => exampleRowOf (db.nextExampleId + p.1) db.nextMeaningId p.2)) :
    e.meaningId = db.nextMeaningId := by
  obtain ⟨p, _, rfl⟩ := List.mem_map.1 he
  rfl

lemma insertMeaning_wf (wid : Nat) (df : MeaningInput) (db : DB) (h : db.WF) :
    (insertMeaning wid df db).WF := by
  obtain ⟨h1, h2⟩ := h
  constructor
  · intro m hm
    rw [insertMeaning_meanings] at hm
    rw [insertMeaning_nextMeaningId]
    rcases List.mem_append.1 hm with hmem | hmem
    · exact Nat.lt_succ_of_lt (h1 m hmem)
    · rcases List.mem_singleton.1 hmem with rfl
      exact Nat.lt_succ_self _
  · intro e he
    rw [insertMeaning_examples] at he
    rw [insertMeaning_nextMeaningId]
    rcases List.mem_append.1 he with hmem | hmem
    · exact Nat.lt_succ_of_lt (h2 e hmem)
    · rw [mem_insertMeaning_exRows hmem]
      exact Nat.lt_succ_self _

lemma examplesOf_insertMeaning_lt (wid : Nat) (df : MeaningInput) (db : DB)
    (h : db.WF) (mId : Nat) (hlt : mId < db.nextMeaningId) :
    examplesOf (insertMeaning wid df db) mId = examplesOf db mId := by
  unfold examplesOf
  rw [insertMeaning_examples, List.filter_append]
  have hnil : ((normalizeAndCleanExamples df.examples).enum.map
      (fun p => exampleRowOf (db.nextExampleId + p.1) db.nextMeaningId p.2)).filter
        (fun e => e.meaningId == mId) = [] := by
    rw [List.filter_eq_nil_iff]
    intro e he
    rw [mem_insertMeaning_exRows he]
    simp only [beq_iff_eq]
    omega
  rw [hnil, List.append_nil]

lemma examplesOf_insertMeaning_self (wid : Nat) (df : MeaningInput) (db : DB) (h : db.WF) :
    examplesOf (insertMeaning wid df db) db.nextMeaningId =
      (normalizeAndCleanExamples df.examples).enum.map
        (fun p => exampleRowOf (db.nextExampleId + p.1) db.nextMeaningId p.2) := by
  unfold examplesOf
  rw [insertMeaning_examples, List.filter_append]
  have hold : db.examples.filter (fun e => e.meaningId == db.nextMeaningId) = [] := by
    rw [List.filter_eq_nil_iff]
    intro e he
    have := h.2 e he
    simp only [beq_iff_eq]
    omega
  have hnew : ((normalizeAndCleanExamples df.examples).enum.map
      (fun p => exampleRowOf (db.nextExampleId + p.1) db.nextMeaningId p.2)).filter
        (fun e => e.meaningId == db.nextMeaningId) =
      (normalizeAndCleanExamples df.examples).enum.map
        (fun p => exampleRowOf (db.nextExampleId + p.1) db.nextMeaningId p.2) := by
    rw [List.filter_eq_self]
    intro e he
    rw [mem_insertMeaning_exRows he]
    exact beq_self_eq_true _
  rw [hold, hnew, List.nil_append]

lemma toCleaned_exampleRowOf (eid mid : Nat) (ex : CleanedExample) :
    ExampleRow.toCleaned (exampleRowOf eid mid ex) = ex := rfl

lemma map_toCleaned_exRows (base mid : Nat) (l : List CleanedExample) :
    l.enum.map (ExampleRow.toCleaned ∘ fun p => exampleRowOf (base + p.1) mid p.2) = l := by
  have hfun : (ExampleRow.toCleaned ∘ fun p : Nat × CleanedExample =>
      exampleRowOf (base + p.1) mid p.2) = Prod.snd := funext fun p => rfl
  rw [hfun, List.enum_map_snd]

lemma readWordValues_insertMeaning (wid : Nat) (df : MeaningInput) (db : DB) (h : db.WF) :
    readWordValues (insertMeaning wid df db) wid =
      readWordValues db wid ++ [storedOfInput df] := by
  unfold readWordValues meaningsOf
  rw [insertMeaning_meanings, List.filter_append]
  have hrow : [meaningRowOf wid db.nextMeaningId df].filter (fun m => m.wordId == wid) =
      [meaningRowOf wid db.nextMeaningId df] := by
    simp [meaningRowOf]
  rw [hrow, List.map_append]
  congr 1
  · apply List.map_congr_left
    intro m hm
    have hmem : m ∈ db.meanings := (List.mem_filter.1 hm).1
    have hlt : m.id < db.nextMeaningId := h.1 m hmem
    simp [MeaningRow.toStored, examplesOf_insertMeaning_lt wid df db h m.id hlt]
  · simp only [List.map_cons, List.map_nil]
    congr 1
    show MeaningRow.toStored (insertMeaning wid df db) (meaningRowOf wid db.nextMeaningId df) =
      storedOfInput df
    have hid : (meaningRowOf wid db.nextMeaningId df).id = db.nextMeaningId := rfl
    simp [MeaningRow.toStored, storedOfInput, meaningRowOf, hid,
      examplesOf_insertMeaning_self wid df db h, map_toCleaned_exRows]

lemma readWordValues_foldl (wid : Nat) (vs : List MeaningInput) (db : DB) (h : db.WF) :
    readWordValues (vs.foldl (fun d df => insertMeaning wid df d) db) wid =
      readWordValues db wid ++ vs.map storedOfInput := by
  induction vs generalizing db with
  | nil => simp
  | cons v vs ih =>
    rw [List.foldl_cons, ih (insertMeaning wid v db) (insertMeaning_wf wid v db h),
      readWordValues_insertMeaning wid v db h, List.map_cons, List.append_assoc,
      List.singleton_append]

lemma foldl_insertMeaning_mem_meanings (wid : Nat) (vs : List MeaningInput) (db : DB)
    (m : MeaningRow) (hm : m ∈ (vs.foldl (fun d df => insertMeaning wid df d) db).meanings) :
    m ∈ db.meanings ∨ db.nextMeaningId ≤ m.id := by
  induction vs generalizing db with
  | nil => exact Or.inl hm
  | cons v vs ih =>
    rw [List.foldl_cons] at hm
    rcases ih (insertMeaning wid v db) hm with h1 | h1
    · rw [insertMeaning_meanings] at h1
      rcases List.mem_append.1 h1 with hmem | hmem
      · exact Or.inl hmem
      · rcases List.mem_singleton.1 hmem with rfl
        exact Or.inr (Nat.le_refl _)
    · rw [insertMeaning_nextMeaningId] at h1
      exact Or.inr (by omega)

lemma foldl_insertMeaning_words (wid : Nat) (vs : List MeaningInput) (db : DB) :
    (vs.foldl (fun d df => insertMeaning wid df d) db).words = db.words := by
  induction vs generalizing db with
  | nil => rfl
  | cons v vs ih => rw [List.foldl_cons, ih (insertMeaning wid v db), insertMeaning_words]

/-! ## Sample data used by witnesses and counterexamples -/

/-- Empty options record for `updateWordByLemma`. -/
def noUpdateOptions : UpdateWordOptions := {}

/-- Empty options record for `createWord`. -/
def noCreateOptions : CreateWordOptions := {}

/-- A meaning submission used in concrete checks. -/
def sampleMeaning : MeaningInput :=
  { number := 1, meaning := "vivienda",
    examples := some [{ value := "una casa grande", source := some "X" }] }

/-- A stored word row used in concrete checks. -/
def wordCasaRow : WordRow := { id := 1, «lemma» := "casa", letter := "c", status := "included" }

/-- A database holding the word `casa` with one pre-existing meaning. -/
def dbCasa : DB :=
  { words := [wordCasaRow]
    meanings := [meaningRowOf 1 1 { number := 1, meaning := "acepcion antigua" }]
    examples := []
    nextWordId := 2
    nextMeaningId := 2
    nextExampleId := 1 }

/-- An update payload resubmitting `casa` with one meaning. -/
def casaUpdate : WordInput := { «lemma» := "casa", values := [sampleMeaning] }

/-! ## Claim theorems -/

/-- C1: after a successful `updateWordByLemma(prevLemma, word-with-values-A)`,
the stored meaning set (with cascaded examples) for that word is exactly the
submitted set `A` — one stored meaning per submitted meaning, in submission
order, carrying the submitted contents (under the storage normalization
`insertMeaning` applies) and the submitted examples — and every meaning row
the word had before the call is gone from the table. -/
theorem updateWordByLemma_full_replace (db : DB) (prevLemma : String)
    (w : WordInput) (options : UpdateWordOptions) (wr : WordRow)
    (hwf : db.WF) (hfind : db.words.find? (fun r => r.«lemma» == prevLemma) = some wr) :
    (updateWordByLemma prevLemma w options db).2 = .ok () ∧
    readWordValues (updateWordByLemma prevLemma w options db).1 wr.id =
      w.values.map storedOfInput ∧
    ∀ m ∈ db.meanings, m.wordId = wr.id →
      m ∉ (updateWordByLemma prevLemma w options db).1.meanings := by
  have hred : updateWordByLemma prevLemma w options db =
      (w.values.foldl (fun d df => insertMeaning wr.id df d)
        { db with
          words := db.words.map
            (fun r => if r.id == wr.id then applyWordUpdate w options r else r)
          meanings := db.meanings.filter (fun m => !(m.wordId == wr.id))
          examples := db.examples.filter (fun e =>
            !(((db.meanings.filter (fun m => m.wordId == wr.id)).map (·.id)).contains
              e.meaningId)) }, .ok ()) := by
    unfold updateWordByLemma
    rw [hfind]
  set db1 : DB :=
    { db with
      words := db.words.map
        (fun r => if r.id == wr.id then applyWordUpdate w options r else r)
      meanings := db.meanings.filter (fun m => !(m.wordId == wr.id))
      examples := db.examples.filter (fun e =>
        !(((db.meanings.filter (fun m => m.wordId == wr.id)).map (·.id)).contains
          e.meaningId)) } with hdb1
  have hwf1 : db1.WF := by
    constructor
    · intro m hm
      exact hwf.1 m (List.mem_filter.1 hm).1
    · intro e he
      exact hwf.2 e (List.mem_filter.1 he).1
  have hbase : readWordValues db1 wr.id = [] := by
    unfold readWordValues meaningsOf
    have : db1.meanings.filter (fun m => m.wordId == wr.id) = [] := by
      rw [List.filter_eq_nil_iff]
      intro m hm
      have := (List.mem_filter.1 hm).2
      simp only [Bool.not_eq_true'] at this
      simp [this]
    rw [this, List.map_nil]
  refine ⟨by rw [hred], ?_, ?_⟩
  · rw [hred]
    show readWordValues (w.values.foldl (fun d df => insertMeaning wr.id df d) db1) wr.id =
      w.values.map storedOfInput
    rw [readWordValues_foldl wr.id w.values db1 hwf1, hbase, List.nil_append]
  · intro m hm hwid hcontra
    rw [hred] at hcontra
    have hc2 : m ∈ (w.values.foldl (fun d df => insertMeaning wr.id df d) db1).meanings :=
      hcontra
    rcases foldl_insertMeaning_mem_meanings wr.id w.values db1 m hc2 with h1 | h1
    · have := (List.mem_filter.1 h1).2
      simp only [Bool.not_eq_true'] at this
      rw [beq_eq_false_iff_ne] at this
      exact this hwid
    · have hlt : m.id < db.nextMeaningId := hwf.1 m hm
      have : db1.nextMeaningId = db.nextMeaningId := rfl
      omega

/-- C1 witness: concrete round-trip on `dbCasa` — update `casa` with the
single-meaning set of `casaUpdate`, read back exactly that set. -/
theorem updateWordByLemma_full_replace_witness :
    readWordValues (updateWordByLemma "casa" casaUpdate noUpdateOptions dbCasa).1
      wordCasaRow.id = casaUpdate.values.map storedOfInput :=
  (updateWordByLemma_full_replace dbCasa "casa" casaUpdate noUpdateOptions wordCasaRow
    (by constructor <;> decide) (by decide)).2.1

/-- C2 (claim refuted by the code): `updateWordByLemma` runs its word-row
update, delete-all-meanings and reinsert steps as separate sequential calls
with no transaction around them. The full call sequence reproduces the
function's result (last conjunct), but cutting it after the delete — the state
the store is left in when a reinsert fails — leaves the word `casa` observable
with zero meanings even though it had one before, and the prior state is not
restored; so a mid-sequence failure does not leave the word's state
unchanged, contradicting the claimed transaction boundary. -/
theorem updateWordByLemma_partial_failure_window :
    meaningsOf dbCasa 1 ≠ [] ∧
    ((updateWordOps 1 casaUpdate noUpdateOptions).take 2).foldl applyOp dbCasa ≠ dbCasa ∧
    meaningsOf (((updateWordOps 1 casaUpdate noUpdateOptions).take 2).foldl applyOp dbCasa) 1
      = [] ∧
    (updateWordOps 1 casaUpdate noUpdateOptions).foldl applyOp dbCasa =
      (updateWordByLemma "casa" casaUpdate noUpdateOptions dbCasa).1 := by
  refine ⟨by decide, by decide, by decide, by decide⟩

/-! ## Search controller lemmas -/

lemma searchStep_latestRequest_respondOk (s : ControllerState) (tok : Nat)
    (query : String) (page : Nat) (data : SearchData) :
    (searchStep s (.respondOk tok query page data)).latestRequest = s.latestRequest := by
  show (if tok == s.latestRequest then _ else s).latestRequest = s.latestRequest
  split <;> rfl

lemma searchStep_latestRequest_respondErr (s : ControllerState) (tok : Nat) :
    (searchStep s (.respondErr tok)).latestRequest = s.latestRequest := by
  show (if tok == s.latestRequest then _ else s).latestRequest = s.latestRequest
  split <;> rfl

lemma issuedTokens_gt (es : List SearchEvent) :
    ∀ s : ControllerState, ∀ t ∈ issuedTokens s es, s.latestRequest < t := by
  induction es with
  | nil =>
    intro s t ht
    simp [issuedTokens] at ht
  | cons e es ih =>
    intro s t ht
    cases e with
    | issue =>
      rw [issuedTokens] at ht
      rcases List.mem_cons.1 ht with rfl | hmem
      · exact Nat.lt_succ_self _
      · have := ih (searchStep s .issue) t hmem
        have hstep : (searchStep s .issue).latestRequest = s.latestRequest + 1 := rfl
        omega
    | respondOk tok query page data =>
      rw [issuedTokens] at ht
      have := ih (searchStep s (.respondOk tok query page data)) t ht
      rw [searchStep_latestRequest_respondOk] at this
      exact this
    | respondErr tok =>
      rw [issuedTokens] at ht
      have := ih (searchStep s (.respondErr tok)) t ht
      rw [searchStep_latestRequest_respondErr] at this
      exact this

lemma issuedTokens_pairwise (es : List SearchEvent) :
    ∀ s : ControllerState, (issuedTokens s es).Pairwise (· < ·) := by
  induction es with
  | nil =>
    intro s
    rw [issuedTokens]
    exact List.Pairwise.nil
  | cons e es ih =>
    intro s
    cases e with
    | issue =>
      rw [issuedTokens]
      rw [List.pairwise_cons]
      constructor
      · intro t ht
        have := issuedTokens_gt es (searchStep s .issue) t ht
        have hstep : (searchStep s .issue).latestRequest = s.latestRequest + 1 := rfl
        omega
      · exact ih (searchStep s .issue)
    | respondOk tok query page data =>
      rw [issuedTokens]
      exact ih _
    | respondErr tok =>
      rw [issuedTokens]
      exact ih _

/-- C3: request tokens and stale-response suppression. Conjuncts: (1) along
any event trace the tokens handed to successive requests are strictly
increasing, so each request's token is strictly larger than all previously
issued ones; (2)/(3) a response — success or failure — whose token is not the
most recently issued one leaves the whole controller state (results, totals,
pagination, current page, last query) untouched; (4) in the A-then-B overlap
scenario the final state is the same whichever response arrives first, and it
displays B's results and query. -/
theorem search_last_request_wins (s : ControllerState) (evs : List SearchEvent) :
    (issuedTokens s evs).Pairwise (· < ·) ∧
    (∀ tok query page data, tok ≠ s.latestRequest →
      searchStep s (.respondOk tok query page data) = s) ∧
    (∀ tok, tok ≠ s.latestRequest → searchStep s (.respondErr tok) = s) ∧
    (∀ qA pA dA qB pB dB,
      runSearch initialController
        [.issue, .issue, .respondOk 1 qA pA dA, .respondOk 2 qB pB dB] =
        runSearch initialController
          [.issue, .issue, .respondOk 2 qB pB dB, .respondOk 1 qA pA dA] ∧
      (runSearch initialController
        [.issue, .issue, .respondOk 1 qA pA dA, .respondOk 2 qB pB dB]).searchResults =
        dB.results ∧
      (runSearch initialController
        [.issue, .issue, .respondOk 1 qA pA dA, .respondOk 2 qB pB dB]).lastExecutedQuery =
        qB) := by
  refine ⟨issuedTokens_pairwise evs s, ?_, ?_, ?_⟩
  · intro tok query page data h
    show (if tok == s.latestRequest then _ else s) = s
    rw [if_neg]
    simp only [beq_iff_eq]
    exact h
  · intro tok h
    show (if tok == s.latestRequest then _ else s) = s
    rw [if_neg]
    simp only [beq_iff_eq]
    exact h
  · intro qA pA dA qB pB dB
    exact ⟨rfl, rfl, rfl⟩

/-- A one-row response payload used in concrete checks. -/
def sampleData (r : String) : SearchData :=
  { results := [r], total := 1, totalPages := 1, hasNext := false, hasPrev := false }

/-- C3 witness: a stale success (token `1` while the latest issued token is
`2`) and a stale failure are both discarded without touching the state. -/
theorem search_last_request_wins_witness :
    searchStep (runSearch initialController [.issue, .issue])
        (.respondOk 1 "A" 1 (sampleData "a")) =
      runSearch initialController [.issue, .issue] ∧
    searchStep (runSearch initialController [.issue, .issue]) (.respondErr 1) =
      runSearch initialController [.issue, .issue] :=
  ⟨(search_last_request_wins (runSearch initialController [.issue, .issue]) []).2.1 1 "A" 1
      (sampleData "a") (by decide),
    (search_last_request_wins (runSearch initialController [.issue, .issue]) []).2.2.1 1
      (by decide)⟩

/-- C8: a failed search whose token is still current is swallowed by the
controller — the step function returns a state (it never rethrows) in which
the displayed results are empty, the total is zero and the pagination metadata
is reset, while every other field (current page, last executed query, the
token counter, and all stored rows, which the search path never writes) is
exactly as before; the same holds at the end of any event trace. -/
theorem search_failure_degrades (s : ControllerState) (evs : List SearchEvent) :
    searchStep s (.respondErr s.latestRequest) =
      { s with
        searchResults := []
        totalResults := 0
        pagination := { totalPages := 0, hasNext := false, hasPrev := false }
        hasSearched := true
        isLoading := false } ∧
    (runSearch s (evs ++ [.respondErr (runSearch s evs).latestRequest])).searchResults = [] ∧
    (runSearch s (evs ++ [.respondErr (runSearch s evs).latestRequest])).totalResults = 0 ∧
    (runSearch s (evs ++ [.respondErr (runSearch s evs).latestRequest])).pagination =
      { totalPages := 0, hasNext := false, hasPrev := false } := by
  have hstep : ∀ u : ControllerState, searchStep u (.respondErr u.latestRequest) =
      { u with
        searchResults := []
        totalResults := 0
        pagination := { totalPages := 0, hasNext := false, hasPrev := false }
        hasSearched := true
        isLoading := false } := by
    intro u
    show (if u.latestRequest == u.latestRequest then _ else u) = _
    rw [if_pos (beq_self_eq_true u.latestRequest)]
  have hrun : runSearch s (evs ++ [.respondErr (runSearch s evs).latestRequest]) =
      searchStep (runSearch s evs) (.respondErr (runSearch s evs).latestRequest) := by
    unfold runSearch
    rw [List.foldl_append]
    rfl
  refine ⟨hstep s, ?_, ?_, ?_⟩ <;> rw [hrun, hstep (runSearch s evs)]

/-! ## Helper lemmas about `createWord` -/

lemma createWord_ok_spec (w : WordInput) (options : CreateWordOptions) (db : DB)
    (res : CreateWordResult) (h : (createWord w options db).2 = .ok res) :
    jsTrim w.«lemma» ≠ "" ∧
    db.words.find? (fun r => r.«lemma» == jsTrim w.«lemma») = none ∧
    res = { wordId := db.nextWordId, «lemma» := jsTrim w.«lemma»,
            letter := normalizedLetterOf options.letter (jsTrim w.«lemma») } ∧
    (createWord w options db).1.words = db.words ++ [createdWordRow w options db] := by
  by_cases hne : jsTrim w.«lemma» = ""
  · exfalso
    unfold createWord at h
    rw [if_pos] at h
    · exact Except.noConfusion h
    · exact beq_iff_eq.2 hne
  · have hbe : (jsTrim w.«lemma» == "") = false := beq_eq_false_iff_ne.2 hne
    cases hfind : db.words.find? (fun r => r.«lemma» == jsTrim w.«lemma») with
    | some r =>
      exfalso
      unfold createWord at h
      rw [if_neg, hfind] at h
      · exact Except.noConfusion h
      · simp [hbe]
    | none =>
      have hred : createWord w options db =
          (w.values.foldl (fun d df => insertMeaning (createdWordRow w options db).id df d)
            { db with words := db.words ++ [createdWordRow w options db],
                      nextWordId := db.nextWordId + 1 },
            .ok { wordId := (createdWordRow w options db).id, «lemma» := jsTrim w.«lemma»,
                  letter := normalizedLetterOf options.letter (jsTrim w.«lemma») }) := by
        unfold createWord
        rw [if_neg, hfind]
        simp [hbe]
      rw [hred] at h
      refine ⟨hne, rfl, ?_, ?_⟩
      · have hid : (createdWordRow w options db).id = db.nextWordId := rfl
        have := Except.ok.inj h
        rw [← this, hid]
      · rw [hred]
        show (w.values.foldl (fun d df =>
            insertMeaning (createdWordRow w options db).id df d)
          { db with words := db.words ++ [createdWordRow w options db],
                    nextWordId := db.nextWordId + 1 }).words = _
        rw [foldl_insertMeaning_words]

/-- The letter stored by the amended derivation rule: the first character of
the trimmed explicit letter option when that trim is non-empty, else the first
character of the trimmed lemma, else `'a'`, each lower-cased by JS (Unicode)
lowercasing — which maps `Á` to `á`, not to `a`. -/
def letterPerAmendedClaim (letterOption : JStr) (lemmaText : String) : String :=
  match (letterOption.map jsTrim).bind firstChar with
  | some c => String.singleton (jsCharToLower c)
  | none =>
    match firstChar (jsTrim lemmaText) with
    | some c => String.singleton (jsCharToLower c)
    | none => String.singleton (jsCharToLower 'a')

lemma normalizedLetterOf_eq_amended (letterOption : JStr) (lemmaText : String) :
    normalizedLetterOf letterOption (jsTrim lemmaText) =
      letterPerAmendedClaim letterOption lemmaText := by
  unfold normalizedLetterOf letterPerAmendedClaim
  cases h1 : (letterOption.map jsTrim).bind firstChar with
  | some c => rfl
  | none =>
    cases h2 : firstChar (jsTrim lemmaText) with
    | some c => rfl
    | none => rfl

/-- C4 counterexample: the claim predicts that `createWord({lemma:"Árbol"},{})`
stores letter `"a"`; the code stores `"á"` — JS `toLowerCase` lowercases the
accented `Á` to `á` and strips no diacritic. -/
theorem createWord_letter_counterexample :
    ((createWord { «lemma» := "Árbol" } noCreateOptions DB.empty).1.words.map (·.letter)) =
      ["á"] ∧
    ((createWord { «lemma» := "Árbol" } noCreateOptions DB.empty).1.words.map (·.letter)) ≠
      ["a"] := by
  refine ⟨by decide, by decide⟩

/-- C4 (amended): for every successful `createWord` call, the stored and
returned letter is: the first character of the trimmed explicit letter option
when that trim is non-empty, else the first character of the trimmed lemma,
else `'a'`, lower-cased by JS Unicode lowercasing (no diacritic stripping) —
in particular `createWord({lemma:"Árbol"},{})` stores `"á"` and
`createWord({lemma:"casa"},{letter:"Z"})` stores `"z"`. -/
theorem createWord_letter (w : WordInput) (options : CreateWordOptions) (db : DB)
    (res : CreateWordResult) (h : (createWord w options db).2 = .ok res) :
    res.letter = letterPerAmendedClaim options.letter w.«lemma» ∧
    ∃ r, (createWord w options db).1.words = db.words ++ [r] ∧
      r.letter = letterPerAmendedClaim options.letter w.«lemma» := by
  obtain ⟨hne, hfind, hres, hwords⟩ := createWord_ok_spec w options db res h
  constructor
  · rw [hres]
    exact normalizedLetterOf_eq_amended options.letter w.«lemma»
  · refine ⟨createdWordRow w options db, hwords, ?_⟩
    show normalizedLetterOf options.letter (jsTrim w.«lemma») = _
    exact normalizedLetterOf_eq_amended options.letter w.«lemma»

/-- C4 witness: `createWord({lemma:"casa"},{letter:"Z"})` succeeds and both
the returned and the amended-rule letter are `"z"`. -/
theorem createWord_letter_witness :
    (createWord { «lemma» := "casa" } { letter := some "Z" } DB.empty).2 =
      .ok { wordId := 1, «lemma» := "casa", letter := "z" } ∧
    letterPerAmendedClaim (some "Z") "casa" = "z" ∧
    ({ wordId := 1, «lemma» := "casa", letter := "z" : CreateWordResult }).letter =
      letterPerAmendedClaim (some "Z") "casa" :=
  ⟨by decide, by decide,
    (createWord_letter { «lemma» := "casa" } { letter := some "Z" } DB.empty
      { wordId := 1, «lemma» := "casa", letter := "z" } (by decide)).1⟩

/-- C5: a `createWord` call whose lemma trims to the empty string fails with
the `ValidationError` (`'El lema es obligatorio'`) and returns the database
unchanged — no word, meaning or example row is written. -/
theorem createWord_empty_lemma (w : WordInput) (options : CreateWordOptions) (db : DB)
    (h : jsTrim w.«lemma» = "") :
    createWord w options db = (db, .error (.validationError "El lema es obligatorio")) := by
  unfold createWord
  rw [if_pos]
  exact beq_iff_eq.2 h

/-- C5 witness: creating a word from the whitespace-only lemma `"   "` fails
with the validation error and leaves the database untouched. -/
theorem createWord_empty_lemma_witness :
    createWord { «lemma» := "   " } noCreateOptions dbCasa =
      (dbCasa, .error (.validationError "El lema es obligatorio")) :=
  createWord_empty_lemma { «lemma» := "   " } noCreateOptions dbCasa (by decide)

/-- A database whose only word row carries the empty lemma — reachable through
`updateWordByLemma`, which stores `updatedWord.lemma` without validating it. -/
def dbEmptyLemmaRow : DB :=
  { DB.empty with
    words := [{ id := 1, «lemma» := "", letter := "a", status := "included" }]
    nextWordId := 2 }

/-- C6 counterexample: with a stored word row whose lemma is `""`, the call
`createWord({lemma:"  "})` has a trimmed lemma (`""`) that already exists as a
word's lemma under case-sensitive exact match, yet it fails with the
`ValidationError`, not the claimed `ConflictError` — the empty-lemma check
runs before the duplicate check. -/
theorem createWord_conflict_counterexample :
    dbEmptyLemmaRow.words.map (·.«lemma») = [""] ∧
    jsTrim "  " = "" ∧
    (createWord { «lemma» := "  " } noCreateOptions dbEmptyLemmaRow).2 =
      .error (.validationError "El lema es obligatorio") ∧
    (createWord { «lemma» := "  " } noCreateOptions dbEmptyLemmaRow).2 ≠
      .error (.conflictError "Ya existe una palabra con el lema \"\"") := by
  refine ⟨by decide, by decide, by decide, by decide⟩

/-- C6 (amended): for every `createWord` call whose trimmed lemma is
*non-empty* and already exists as a word's lemma (case-sensitive exact match),
the operation fails with the `ConflictError` naming that lemma and the
database is returned unchanged — the existing row is untouched and no new row
is written. -/
theorem createWord_conflict (w : WordInput) (options : CreateWordOptions) (db : DB)
    (hne : jsTrim w.«lemma» ≠ "") (hex : ∃ r ∈ db.words, r.«lemma» = jsTrim w.«lemma») :
    createWord w options db =
      (db, .error (.conflictError
        ("Ya existe una palabra con el lema \"" ++ jsTrim w.«lemma» ++ "\""))) := by
  have hbe : (jsTrim w.«lemma» == "") = false := beq_eq_false_iff_ne.2 hne
  cases hfind : db.words.find? (fun r => r.«lemma» == jsTrim w.«lemma») with
  | none =>
    exfalso
    obtain ⟨r, hr, hl⟩ := hex
    have := List.find?_eq_none.1 hfind r hr
    rw [beq_iff_eq] at this
    exact this hl
  | some r =>
    unfold createWord
    rw [if_neg, hfind]
    simp [hbe]

/-- C6 witness: re-creating the existing lemma `casa` fails with the conflict
error and leaves the database unchanged. -/
theorem createWord_conflict_witness :
    createWord { «lemma» := " casa " } noCreateOptions dbCasa =
      (dbCasa, .error (.conflictError
        ("Ya existe una palabra con el lema \"" ++ jsTrim " casa " ++ "\""))) :=
  createWord_conflict { «lemma» := " casa " } noCreateOptions dbCasa (by decide)
    ⟨wordCasaRow, by decide, by decide⟩

/-- C7: example cleaning. Conjuncts, in order: (1) an example with a truthy
legacy `source` and no (falsy) `publication` is stored with `publication`
equal to that `source` value; (2) a truthy `publication` is kept; (3) the
quotation text is kept as-is; (4) submitted example lists are cleaned
element-wise; (5)–(16) each of the other falsy bibliographic fields is stored
as `NULL`. -/
theorem cleanExample_legacy_source (ex : Example) :
    (jsTruthy ex.source = true → jsTruthy ex.publication = false →
      (cleanExample ex).publication = ex.source) ∧
    (jsTruthy ex.publication = true → (cleanExample ex).publication = ex.publication) ∧
    (cleanExample ex).value = ex.value ∧
    (∀ exs : List Example, normalizeAndCleanExamples (some exs) = exs.map cleanExample) ∧
    (jsTruthy ex.author = false → (cleanExample ex).author = none) ∧
    (jsTruthy ex.year = false → (cleanExample ex).year = none) ∧
    (jsTruthy ex.format = false → (cleanExample ex).format = none) ∧
    (jsTruthy ex.title = false → (cleanExample ex).title = none) ∧
    (jsTruthy ex.date = false → (cleanExample ex).date = none) ∧
    (jsTruthy ex.city = false → (cleanExample ex).city = none) ∧
    (jsTruthy ex.editorial = false → (cleanExample ex).editorial = none) ∧
    (jsTruthy ex.volume = false → (cleanExample ex).volume = none) ∧
    (jsTruthy ex.number = false → (cleanExample ex).number = none) ∧
    (jsTruthy ex.page = false → (cleanExample ex).page = none) ∧
    (jsTruthy ex.doi = false → (cleanExample ex).doi = none) ∧
    (jsTruthy ex.url = false → (cleanExample ex).url = none) := by
  refine ⟨fun hs hp => ?_, fun hp => ?_, rfl, fun exs => ?_, fun h => ?_, fun h => ?_,
    fun h => ?_, fun h => ?_, fun h => ?_, fun h => ?_, fun h => ?_, fun h => ?_,
    fun h => ?_, fun h => ?_, fun h => ?_, fun h => ?_⟩
  · simp [cleanExample, jsOr, orNull, hp, hs]
  · simp [cleanExample, jsOr, hp]
  · cases exs <;> rfl
  all_goals simp [cleanExample, orNull, h]

/-- An example carrying only a legacy `source`, used in concrete checks. -/
def exampleLegacy : Example := { value := "cita", source := some "X" }

/-- C7 witness: the legacy example is stored with `publication = source` and
its falsy `author` field stored as `NULL`. -/
theorem cleanExample_legacy_source_witness :
    (cleanExample exampleLegacy).publication = exampleLegacy.source ∧
    (cleanExample exampleLegacy).author = none :=
  ⟨(cleanExample_legacy_source exampleLegacy).1 (by decide) (by decide),
    (cleanExample_legacy_source exampleLegacy).2.2.2.2.1 (by decide)⟩

lemma filtersChanged_eq_false_iff (a b : LocalSearchFilters) :
    filtersChanged a b = false ↔ a = b := by
  cases a
  cases b
  simp only [filtersChanged, Bool.or_eq_false_iff, bne_eq_false_iff_eq,
    LocalSearchFilters.mk.injEq]
  tauto

/-- C9: a state transition whose query text equals the current query and
whose filters are structurally equal per filter category (i.e.
`filtersChanged` reports no change) is a no-op: `updateStateIfChanged`
returns the previous state object itself, and so does the updater installed
by `handleSearchStateChange` in either mode — no redundant re-render or
request is triggered. -/
theorem updateStateIfChanged_noop (prev : SearchUiState) (query : String)
    (filters : LocalSearchFilters)
    (hq : prev.query = query) (hf : filtersChanged prev.filters filters = false) :
    updateStateIfChanged prev query filters = prev ∧
    ∀ editorMode, handleSearchStateChange editorMode query filters prev = prev := by
  have hqb : (prev.query != query) = false := bne_eq_false_iff_eq.2 hq
  have h1 : updateStateIfChanged prev query filters = prev := by
    simp [updateStateIfChanged, hf, hqb]
  refine ⟨h1, ?_⟩
  intro editorMode
  cases editorMode with
  | false => simpa [handleSearchStateChange] using h1
  | true => simp [handleSearchStateChange, hf]

/-- A filter selection used in concrete checks. -/
def sampleFilters : LocalSearchFilters := { categories := ["sustantivo"], letters := ["c"] }

/-- A search UI state used in concrete checks. -/
def sampleUiState : SearchUiState :=
  { query := "casa", filters := sampleFilters, status := "", assignedTo := [] }

/-- C9 witness: re-submitting the identical query and structurally equal
filters hands back the previous state object unchanged. -/
theorem updateStateIfChanged_noop_witness :
    updateStateIfChanged sampleUiState "casa" sampleFilters = sampleUiState :=
  (updateStateIfChanged_noop sampleUiState "casa" sampleFilters (by decide) (by decide)).1

/-- C10: every successful `createWord` call inserts exactly one word row whose
status is the explicit status option when given, verbatim, and `'included'`
otherwise — not the `'draft'` declared as the schema's column default, which
the insert therefore always overrides. -/
theorem createWord_status_default (w : WordInput) (options : CreateWordOptions) (db : DB)
    (res : CreateWordResult) (h : (createWord w options db).2 = .ok res) :
    (∃ r, (createWord w options db).1.words = db.words ++ [r] ∧
      r.status = (match options.status with | some s => s | none => "included")) ∧
    wordsStatusDefault = "draft" ∧
    ("included" : String) ≠ wordsStatusDefault := by
  obtain ⟨-, -, -, hwords⟩ := createWord_ok_spec w options db res h
  refine ⟨⟨createdWordRow w options db, hwords, ?_⟩, rfl, by decide⟩
  show options.status.getD "included" = _
  cases options.status <;> rfl

/-- C10 witness: creating `casa` with no explicit status stores status
`'included'`. -/
theorem createWord_status_default_witness :
    ∃ r, (createWord { «lemma» := "casa" } noCreateOptions DB.empty).1.words =
        DB.empty.words ++ [r] ∧
      r.status = "included" :=
  (createWord_status_default { «lemma» := "casa" } noCreateOptions DB.empty
    { wordId := 1, «lemma» := "casa", letter := "c" } (by decide)).1

end Duech
